import Mathlib

/-!
Verification of the entity-store core (`packages/ember-data/lib/system/store.js`)
against its natural-language specification.

The store is shallowly embedded: JavaScript objects that matter only through
their identity (records, promises/resolvers, record arrays) are represented by
natural numbers drawn from a single allocation counter `nextObj`; JS objects
used as string-keyed dictionaries are association lists; calls handed to the
external adapter collaborator are recorded in an `adapterLog` instead of
performing I/O.  Functions that can throw (Ember.assert failures, TypeErrors)
return `Except String`.

The record lifecycle (DS.Model) and the record-array manager live in files of
the repository that are not part of the analysed source; the few record-side
hooks the store invokes (`loadingData`, `loadedData`, `setupData`,
`adapterWillCommit`, `adapterDidCommit`, `isEmpty`) are modelled from the
specification and are marked as such in their doc comments.
-/

set_option autoImplicit false

/-- A JavaScript value as far as identifier handling is concerned: `null`,
`undefined`, a string, or an integral number. -/
inductive JSVal where
  | null
  | undef
  | str (s : String)
  | num (n : Int)
  deriving DecidableEq, Repr

/-- Source: `var coerceId = function(id) { return id == null ? null : id+'' };`
(`id == null` is loose equality, true exactly for `null` and `undefined`;
`id+''` is JS string conversion). -/
def coerceId : JSVal → JSVal
  | .null => .null
  | .undef => .null
  | .str s => .str s
  | .num n => .str (toString n)

/-- JS truthiness of a value, as used by `if (id)` checks in the source:
`null`, `undefined`, the empty string and `0` are falsy. -/
def jsTruthy : JSVal → Bool
  | .null => false
  | .undef => false
  | .str s => !(s == "")
  | .num n => !(n == 0)

/-- The string a JS engine uses when a value is used as an object property key
(`obj[v]` stringifies `v`). -/
def jsKeyString : JSVal → String
  | .null => "null"
  | .undef => "undefined"
  | .str s => s
  | .num n => toString n

section AListKit

variable {κ : Type} {α : Type} [DecidableEq κ]

/-- Lookup in an association list (the embedding of a JS object used as a
dictionary): first binding for the key wins. -/
def lookupA : List (κ × α) → κ → Option α
  | [], _ => none
  | (k, v) :: rest, k2 => if k = k2 then some v else lookupA rest k2

/-- Deletion of a key (the embedding of JS `delete obj[k]`). -/
def removeA : List (κ × α) → κ → List (κ × α)
  | [], _ => []
  | (k1, v) :: rest, k => if k1 = k then removeA rest k else (k1, v) :: removeA rest k

/-- Assignment of a key (the embedding of JS `obj[k] = v`; JS objects hold at
most one binding per key). -/
def setA (l : List (κ × α)) (k : κ) (v : α) : List (κ × α) :=
  (k, v) :: removeA l k

/-- In-place update of the value bound to a key, if present. -/
def updateA : List (κ × α) → κ → (α → α) → List (κ × α)
  | [], _, _ => []
  | (k1, v) :: rest, k, f =>
      if k1 = k then (k1, f v) :: updateA rest k f else (k1, v) :: updateA rest k f

end AListKit

/-- The portion of a wire payload the store core inspects: its `id` field. -/
structure JSData where
  id : JSVal
  deriving DecidableEq, Repr

/-- Record lifecycle position, as far as the store observes it.  Modelled from
the spec: a record is created as an `empty` shell, moves to `loading` when a
fetch is issued for it, and to `loaded` once data arrives or it is created
locally. -/
inductive RecState where
  | empty
  | loading
  | loaded
  deriving DecidableEq, Repr

/-- One materialized record instance.  `type` is the entity-type key,
`id` the raw value stored on the record by `_create({ id: id })` (not
necessarily coerced), and the flags mirror the record-side state the store
reads (`isNew`, `isDeleted`). -/
structure RecordObj where
  type : Nat
  id : JSVal
  state : RecState
  isNew : Bool
  isDeleted : Bool
  willCommit : Bool
  deriving DecidableEq, Repr

/-- Modelled from the spec: `loadingData` transitions the record from the
empty state to loading (DS.Model is not part of the analysed source). -/
def loadingData (r : RecordObj) : RecordObj :=
  { r with state := .loading }

/-- Modelled from the spec: `loadedData` moves a freshly created record out of
its initial empty state into the loaded (new, not yet persisted) state. -/
def loadedData (r : RecordObj) : RecordObj :=
  { r with state := .loaded, isNew := true }

/-- Modelled from the spec: data ingestion (`setupData`) makes the record
loaded with server-backed data. -/
def setupData (r : RecordObj) (_d : JSData) : RecordObj :=
  { r with state := .loaded, isNew := false }

/-- Modelled from the spec: `adapterWillCommit` marks intent-to-commit on the
record, freezing its snapshot as in-flight data. -/
def adapterWillCommit (r : RecordObj) : RecordObj :=
  { r with willCommit := true }

/-- Modelled from the spec: `adapterDidCommit` acknowledges the commit; the
record settles into the saved/loaded state. -/
def adapterDidCommit (r : RecordObj) : RecordObj :=
  { r with state := .loaded, isNew := false, willCommit := false }

/-- The record-side `isEmpty` flag the store branches on: true exactly in the
initial empty state (modelled from the spec lifecycle). -/
def isEmptyRec (r : RecordObj) : Bool :=
  r.state == .empty

/-- One call dispatched to the external adapter collaborator.  The store
performs no I/O itself; the log is the observable trace of network activity. -/
inductive AdapterCall where
  | find (t : Nat) (id : JSVal) (resolver : Nat)
  | findMany (t : Nat) (ids : List JSVal) (owner : Nat) (resolver : Nat)
  | findAll (t : Nat) (sinceToken : JSVal) (resolver : Nat)
  | createRecord (t : Nat) (record : Nat) (resolver : Nat)
  | updateRecord (t : Nat) (record : Nat) (resolver : Nat)
  | deleteRecord (t : Nat) (record : Nat) (resolver : Nat)
  deriving DecidableEq, Repr

/-- A record array (the `all` collection or a relationship many-array): the
store-side flags the analysed source touches. -/
structure RArray where
  atype : Nat
  content : List Nat
  isUpdating : Bool
  isLoaded : Bool
  loadingCount : Nat
  deriving DecidableEq, Repr

/-- Per-type index structures, as created by `typeMapFor`:
`{ idToRecord: {}, records: [], metadata: {} }` plus the lazily attached
`findAllCache`. -/
structure TypeMap where
  idToRecord : List (String × Nat)
  records : List Nat
  metadata : List (String × JSVal)
  findAllCache : Option Nat
  deriving DecidableEq, Repr

/-- The whole store state.  `heap` maps record object ids to record objects
(objects persist after dematerialization, as in JS), `arrays` maps record
array object ids, `nextObj` is the allocation counter shared by records,
resolvers/promises and arrays, `pendingSave` is `this._pendingSave`,
`flushScheduled` models the pending `Ember.run.once(this, 'flushPendingSave')`
and `resolvedLog` records promises the store code itself resolved
synchronously (`Ember.RSVP.resolve`). -/
structure Store where
  typeMaps : List (Nat × TypeMap)
  heap : List (Nat × RecordObj)
  arrays : List (Nat × RArray)
  nextObj : Nat
  pendingSave : List (Nat × Nat)
  flushScheduled : Bool
  adapterLog : List AdapterCall
  resolvedLog : List Nat
  deriving DecidableEq, Repr

/-- The state `init` sets up: empty bookkeeping structures. -/
def Store.init : Store :=
  { typeMaps := [], heap := [], arrays := [], nextObj := 0, pendingSave := [],
    flushScheduled := false, adapterLog := [], resolvedLog := [] }

/-- Write a type map back into the store (the embedding of mutation through
the shared `typeMap` reference). -/
def setTypeMap (s : Store) (t : Nat) (tm : TypeMap) : Store :=
  { s with typeMaps := setA s.typeMaps t tm }

/-- Source `typeMapFor`: return the type map for `type`, creating and
registering `{ idToRecord: {}, records: [], metadata: {} }` on first use. -/
def typeMapFor (s : Store) (t : Nat) : TypeMap × Store :=
  match lookupA s.typeMaps t with
  | some tm => (tm, s)
  | none =>
      let tm : TypeMap := { idToRecord := [], records := [], metadata := [], findAllCache := none }
      (tm, setTypeMap s t tm)

/-- Source `buildRecord(type, id, data)`: asserts the id is not already in
use, allocates the record via `type._create({ id: id, store: this })`,
optionally ingests `data`, indexes the record under `id` when `id` is truthy,
and appends it to the ordered per-type record list. -/
def buildRecord (s : Store) (t : Nat) (id : JSVal) (data : Option JSData) :
    Except String (Nat × Store) :=
  let (typeMap, s) := typeMapFor s t
  let idToRecord := typeMap.idToRecord
  -- Ember.assert(..., !id || !idToRecord[id])
  if jsTruthy id && (lookupA idToRecord (jsKeyString id)).isSome then
    .error "assert failed: the id has already been used with another record of this type"
  else
    let rid := s.nextObj
    let record : RecordObj :=
      { type := t, id := id, state := .empty, isNew := false, isDeleted := false,
        willCommit := false }
    let record := match data with
      | some d => setupData record d
      | none => record
    let s := { s with heap := setA s.heap rid record, nextObj := s.nextObj + 1 }
    -- if (id) { idToRecord[id] = record; }
    let typeMap :=
      if jsTruthy id then { typeMap with idToRecord := setA idToRecord (jsKeyString id) rid }
      else typeMap
    -- typeMap.records.push(record)
    let typeMap := { typeMap with records := typeMap.records ++ [rid] }
    .ok (rid, setTypeMap s t typeMap)

/-- Source `hasRecordForId`: coerce the id, then test
`!!this.typeMapFor(type).idToRecord[id]` (note the `typeMapFor` call creates
the type map as a side effect). -/
def hasRecordForId (s : Store) (t : Nat) (id : JSVal) : Bool × Store :=
  let id := coerceId id
  let (typeMap, s) := typeMapFor s t
  ((lookupA typeMap.idToRecord (jsKeyString id)).isSome, s)

/-- Source `recordForId`: coerce the id, look it up in `idToRecord`, and fall
back to `buildRecord` when absent.  (`modelFor` is the identity on
already-resolved type keys.) -/
def recordForId (s : Store) (t : Nat) (id : JSVal) : Except String (Nat × Store) :=
  let id := coerceId id
  let (typeMap, s) := typeMapFor s t
  match lookupA typeMap.idToRecord (jsKeyString id) with
  | some rid => .ok (rid, s)
  | none => buildRecord s t id none

/-- Source `getById`: `hasRecordForId ? recordForId : buildRecord` — note the
raw, uncoerced `id` is what reaches `buildRecord` on the miss path. -/
def getById (s : Store) (t : Nat) (id : JSVal) : Except String (Nat × Store) :=
  let (has, s) := hasRecordForId s t id
  if has then recordForId s t id
  else buildRecord s t id none

/-- Source `fetchRecord(record)`: allocate a fresh deferred
(`Ember.RSVP.defer()`), transition the record via `loadingData`, and hand
`(store, type, id, resolver)` to the adapter's `find`; returns
`resolver.promise` (here: the resolver object id). -/
def fetchRecord (s : Store) (rid : Nat) : Except String (Nat × Store) :=
  match lookupA s.heap rid with
  | none => .error "TypeError: fetchRecord called with no record"
  | some r =>
      let resolver := s.nextObj
      let s := { s with nextObj := s.nextObj + 1 }
      let s := { s with heap := setA s.heap rid (loadingData r) }
      let s := { s with adapterLog := s.adapterLog ++ [.find r.type r.id resolver] }
      .ok (resolver, s)

/-- Source `findById(type, id)`: `getById`, then either `fetchRecord` (record
still empty) or `resolve(record)` (a fresh, already-resolved promise).  The
source returns only the promise; the middle component exposes which record
instance the call was about, for specification purposes. -/
def findById (s : Store) (t : Nat) (id : JSVal) : Except String (Nat × Nat × Store) := do
  let (rid, s) ← getById s t id
  match lookupA s.heap rid with
  | none => .error "TypeError: record object missing"
  | some r =>
      if isEmptyRec r then
        let (p, s) ← fetchRecord s rid
        pure (p, rid, s)
      else
        -- return resolve(record): allocates a fresh resolved promise
        let p := s.nextObj
        let s := { s with nextObj := s.nextObj + 1, resolvedLog := s.resolvedLog ++ [p] }
        pure (p, rid, s)

/-- Source `createRecord(type, properties)`: when `properties.id` is none
(`Ember.isNone`: null or undefined) ask the adapter to generate one
(`_generateId` returns null when the adapter has no `generateIdForRecord`,
the default modelled here), coerce the id, `buildRecord`, and move the record
to loaded via `loadedData`. -/
def createRecord (s : Store) (t : Nat) (propId : JSVal) : Except String (Nat × Store) := do
  let propId := if propId = .null ∨ propId = .undef then .null else propId
  let propId := coerceId propId
  let (rid, s) ← buildRecord s t propId none
  match lookupA s.heap rid with
  | none => .error "TypeError: record object missing"
  | some r => pure (rid, { s with heap := setA s.heap rid (loadedData r) })

/-- The `id` property of a record object, as read by `mapProperty('id')`. -/
def idOf (s : Store) (rid : Nat) : JSVal :=
  match lookupA s.heap rid with
  | some r => r.id
  | none => JSVal.undef

/-- Append a record to its type's bucket in the grouped list, creating the
bucket on first sight (the embedding of `Ember.MapWithDefault` keyed by
`record.constructor`, which iterates in insertion order). -/
def groupInsert (acc : List (Nat × List Nat)) (t : Nat) (rid : Nat) : List (Nat × List Nat) :=
  match acc with
  | [] => [(t, [rid])]
  | (t2, rs) :: rest =>
      if t2 = t then (t2, rs ++ [rid]) :: rest
      else (t2, rs) :: groupInsert rest t rid

/-- Group record object ids by the type of the record they reference, in
first-seen type order, preserving input order within a type. -/
def groupByType (s : Store) (rids : List Nat) : List (Nat × List Nat) :=
  rids.foldl
    (fun acc rid =>
      match lookupA s.heap rid with
      | some r => groupInsert acc r.type rid
      | none => acc)
    []

/-- Source `fetchMany(records, owner, resolver)`: bail out on an empty list
(`if (!records.length) { return; }` — nothing is resolved and the adapter is
not touched), otherwise group the records by type and issue one
`findMany(store, type, ids, owner, resolver)` adapter call per type. -/
def fetchMany (s : Store) (records : List Nat) (owner resolver : Nat) : Store :=
  if records.isEmpty then s
  else
    (groupByType s records).foldl
      (fun s g =>
        { s with adapterLog :=
            s.adapterLog ++ [.findMany g.1 (g.2.map (idOf s)) owner resolver] })
      s

/-- Modelled from the spec: `RecordArrayManager.createManyArray(type, records)`
builds the backing collection of a to-many relationship (the record-array
manager is not part of the analysed source).  It allocates a fresh array
object whose content is the given record list. -/
def createManyArray (s : Store) (t : Nat) (rids : List Nat) : Nat × Store :=
  let aid := s.nextObj
  let a : RArray := { atype := t, content := rids, isUpdating := false, isLoaded := false,
                      loadingCount := 0 }
  (aid, { s with nextObj := s.nextObj + 1, arrays := setA s.arrays aid a })

/-- The record-side `isEmpty` flag read through the heap, as used by
`records.filterProperty('isEmpty', true)`. -/
def isEmptyIn (s : Store) (rid : Nat) : Bool :=
  match lookupA s.heap rid with
  | some r => isEmptyRec r
  | none => false

/-- The heap effect of `record.loadingData()` invoked on one record of the
store (the per-record body of `unloadedRecords.forEach`). -/
def loadingMark (s : Store) (rid : Nat) : Store :=
  match lookupA s.heap rid with
  | some r => { s with heap := setA s.heap rid (loadingData r) }
  | none => s

/-- Source `findMany(owner, records, type, resolver)`: filter the input down
to the records whose `isEmpty` is true, build the many-array, mark each
unloaded record as loading, and either hand the unloaded records to
`fetchMany` or mark the array loaded immediately (triggering `didLoad`).
Returns the many-array.  (`registerWaitingRecordArray` lives in the
record-array manager, outside the analysed source; it does not alter any
state read here.) -/
def findMany (s : Store) (owner : Nat) (records : List Nat) (t : Nat) (resolver : Nat) :
    Nat × Store :=
  let unloadedRecords := records.filter (fun rid => isEmptyIn s rid)
  let (manyArray, s) := createManyArray s t records
  let s := unloadedRecords.foldl loadingMark s
  let setLoadingCount := fun (a : RArray) => { a with loadingCount := unloadedRecords.length }
  let s := { s with arrays := updateA s.arrays manyArray setLoadingCount }
  if unloadedRecords.length ≠ 0 then
    (manyArray, fetchMany s unloadedRecords owner resolver)
  else
    (manyArray,
     { s with arrays := updateA s.arrays manyArray (fun a => { a with isLoaded := true }) })

/-- Source `all(type)`: return the cached `findAllCache` array if present;
otherwise create a `RecordArray` (content empty, `isLoaded: true`), register
it with the record-array manager (outside the analysed source), cache it in
the type map and return it. -/
def all (s : Store) (t : Nat) : Nat × Store :=
  let (typeMap, s) := typeMapFor s t
  match typeMap.findAllCache with
  | some aid => (aid, s)
  | none =>
      let aid := s.nextObj
      let a : RArray := { atype := t, content := [], isUpdating := false, isLoaded := true,
                          loadingCount := 0 }
      let s := { s with nextObj := s.nextObj + 1, arrays := setA s.arrays aid a }
      (aid, setTypeMap s t { typeMap with findAllCache := some aid })

/-- The `since` token `fetchAll` reads: `this.typeMapFor(type).metadata.since`
(undefined when never set). -/
def sinceTokenOf (s : Store) (t : Nat) : JSVal :=
  match lookupA (typeMapFor s t).1.metadata "since" with
  | some v => v
  | none => JSVal.undef

/-- Source `fetchAll(type, array)`: read the since token, allocate a deferred,
set `isUpdating` on the array, and unconditionally hand
`(store, type, sinceToken, resolver)` to the adapter's `findAll`; returns
`resolver.promise`.  Note there is no guard on `isUpdating`. -/
def fetchAll (s : Store) (t : Nat) (arrayId : Nat) : Nat × Store :=
  let (_, s) := typeMapFor s t
  let sinceToken := sinceTokenOf s t
  let resolver := s.nextObj
  let s := { s with nextObj := s.nextObj + 1 }
  let s := { s with arrays := updateA s.arrays arrayId (fun a => { a with isUpdating := true }) }
  let s := { s with adapterLog := s.adapterLog ++ [.findAll t sinceToken resolver] }
  (resolver, s)

/-- Source `findAll(type)`: `return this.fetchAll(type, this.all(type));` —
the value returned to the caller is `fetchAll`'s promise. -/
def findAll (s : Store) (t : Nat) : Nat × Store :=
  let (arrayId, s) := all s t
  fetchAll s t arrayId

/-- Source `metaForType(type, property, data)`: set a property on the type
map's metadata object. -/
def metaForType (s : Store) (t : Nat) (property : String) (data : JSVal) : Store :=
  let (typeMap, s) := typeMapFor s t
  setTypeMap s t { typeMap with metadata := setA typeMap.metadata property data }

/-- Source `didUpdateAll(type)`: `set(findAllCache, 'isUpdating', false)` —
a TypeError if no `all` array was ever created for the type. -/
def didUpdateAll (s : Store) (t : Nat) : Except String Store :=
  let (typeMap, s) := typeMapFor s t
  match typeMap.findAllCache with
  | none => .error "TypeError: cannot set isUpdating of undefined findAllCache"
  | some aid =>
      .ok { s with arrays := updateA s.arrays aid (fun a => { a with isUpdating := false }) }

/-- Source `scheduleSave(record, resolver)`: `record.adapterWillCommit()`,
push the `(record, resolver)` pair onto `this._pendingSave`, and
`Ember.run.once(this, 'flushPendingSave')` (idempotent scheduling flag). -/
def scheduleSave (s : Store) (rid resolver : Nat) : Store :=
  let s := { s with heap := updateA s.heap rid adapterWillCommit }
  { s with pendingSave := s.pendingSave ++ [(rid, resolver)], flushScheduled := true }

/-- The adapter commit call `flushPendingSave` makes for one queue entry:
create/delete/update chosen by the record's `isNew`/`isDeleted` flags.
`none` only for a dangling entry, which the source cannot produce (entries
are pushed as live record objects). -/
def saveCallOf (s : Store) (e : Nat × Nat) : Option AdapterCall :=
  match lookupA s.heap e.1 with
  | none => none
  | some r =>
      some (if r.isNew then .createRecord r.type e.1 e.2
            else if r.isDeleted then .deleteRecord r.type e.1 e.2
            else .updateRecord r.type e.1 e.2)

/-- Dispatch one pending-save entry to the adapter. -/
def flushEntry (s : Store) (e : Nat × Nat) : Store :=
  match saveCallOf s e with
  | none => s
  | some c => { s with adapterLog := s.adapterLog ++ [c] }

/-- Source `flushPendingSave()`: iterate `this._pendingSave` with `forEach`
(which fixes the range of visited elements when the loop starts), dispatching
each entry to the adapter by record state, then `this._pendingSave = []`.
`during` models `scheduleSave` calls made synchronously by adapter hooks
while the loop runs: they push onto the live array (never visited by the
running `forEach`) and re-arm the once-flag, and are then discarded wholesale
by the final assignment. -/
def flushPendingSave (s : Store) (during : List (Nat × Nat)) : Store :=
  -- the scheduled once-invocation is consumed as the flush starts
  let s := { s with flushScheduled := false }
  let snapshot := s.pendingSave
  let s := snapshot.foldl flushEntry s
  let s := during.foldl (fun s e => scheduleSave s e.1 e.2) s
  -- this._pendingSave = [];
  { s with pendingSave := [] }

/-- Source `updateId(record, data)`: assert
`oldId === null || id === oldId`, then index the record under the coerced new
id in the type map and assign the record's `id` property. -/
def updateId (s : Store) (rid : Nat) (data : JSData) : Except String Store :=
  match lookupA s.heap rid with
  | none => .error "TypeError: updateId called with no record"
  | some r =>
      let oldId := r.id
      let id := coerceId data.id
      if ¬(oldId = JSVal.null ∨ id = oldId) then
        .error "assert failed: an adapter cannot assign a new id to a record that already has an id"
      else
        let (typeMap, s) := typeMapFor s r.type
        let s := setTypeMap s r.type
          { typeMap with idToRecord := setA typeMap.idToRecord (jsKeyString id) rid }
        .ok { s with heap := setA s.heap rid { r with id := id } }

/-- Source `didSaveRecord(record, data)`: `updateId` when data is supplied,
then `record.adapterDidCommit(data)`. -/
def didSaveRecord (s : Store) (rid : Nat) (data : Option JSData) : Except String Store := do
  let s ← match data with
    | some d => updateId s rid d
    | none => pure s
  match lookupA s.heap rid with
  | none => .error "TypeError: record object missing"
  | some r => pure { s with heap := setA s.heap rid (adapterDidCommit r) }

/-- Source `didReceiveId(record, id)`: reads the type map and the record's
`clientId` and `id`, asserts `oldId === undefined || id === oldId`, then
executes `typeMap.idToCid[id] = clientId` — but `typeMapFor` never creates an
`idToCid` object (type maps carry only `idToRecord`, `records`, `metadata`),
so the assignment is a property store on `undefined`: a TypeError. -/
def didReceiveId (s : Store) (rid : Nat) (id : JSVal) : Except String Store :=
  match lookupA s.heap rid with
  | none => .error "TypeError: didReceiveId called with no record"
  | some r =>
      let (_, _s) := typeMapFor s r.type
      let oldId := r.id
      if ¬(oldId = JSVal.undef ∨ id = oldId) then
        .error "assert failed: an adapter cannot assign a new id to a record that already has an id"
      else
        .error "TypeError: cannot set property of undefined typeMap idToCid"

/-- `Ember.EnumerableUtils.indexOf`: first index of the element, `-1` when
absent. -/
def indexOfA (l : List Nat) (x : Nat) : Int :=
  match l.indexOf? x with
  | some i => (i : Int)
  | none => -1

/-- `array.splice(loc, 1)`: remove one element starting at `loc`; a negative
`loc` counts from the end, so `splice(-1, 1)` removes the last element. -/
def spliceOne (l : List Nat) (i : Int) : List Nat :=
  if i < 0 then l.dropLast
  else l.take i.toNat ++ l.drop (i.toNat + 1)

/-- Source `dematerializeRecord(record)`: free the identifier slot when the
record's id is truthy (`delete typeMap.idToRecord[id]`) and splice the record
out of the ordered per-type list.  (`record.updateRecordArrays()` notifies
the record-array manager, outside the analysed source; the record object
itself persists.) -/
def dematerializeRecord (s : Store) (rid : Nat) : Store :=
  match lookupA s.heap rid with
  | none => s
  | some r =>
      let (typeMap, s) := typeMapFor s r.type
      let typeMap :=
        if jsTruthy r.id then
          { typeMap with idToRecord := removeA typeMap.idToRecord (jsKeyString r.id) }
        else typeMap
      let typeMap := { typeMap with records := spliceOne typeMap.records (indexOfA typeMap.records rid) }
      setTypeMap s r.type typeMap

/-- True for `Except.error`. -/
def isError {ε α : Type} : Except ε α → Bool
  | .error _ => true
  | .ok _ => false

section AListLemmas

variable {κ : Type} {α : Type} [DecidableEq κ]

@[simp] theorem lookupA_setA_same (l : List (κ × α)) (k : κ) (v : α) :
    lookupA (setA l k v) k = some v := by
  simp [setA, lookupA]

theorem lookupA_removeA (l : List (κ × α)) (k k2 : κ) :
    lookupA (removeA l k) k2 = if k = k2 then none else lookupA l k2 := by
  induction l with
  | nil => simp [removeA, lookupA]
  | cons e rest ih =>
      obtain ⟨k1, v⟩ := e
      by_cases h1 : k1 = k <;> by_cases h2 : k = k2 <;> simp_all [removeA, lookupA]

theorem lookupA_setA (l : List (κ × α)) (k k2 : κ) (v : α) :
    lookupA (setA l k v) k2 = if k = k2 then some v else lookupA l k2 := by
  by_cases h : k = k2
  · subst h; simp
  · simp [setA, lookupA, h, lookupA_removeA]

theorem lookupA_updateA (l : List (κ × α)) (k k2 : κ) (f : α → α) :
    lookupA (updateA l k f) k2 =
      if k = k2 then (lookupA l k2).map f else lookupA l k2 := by
  induction l with
  | nil => simp [updateA, lookupA]
  | cons e rest ih =>
      obtain ⟨k1, v⟩ := e
      by_cases h1 : k1 = k <;> by_cases h2 : k = k2 <;> simp_all [updateA, lookupA]

end AListLemmas

theorem jsKeyString_coerceId (v : JSVal) (h : jsTruthy v = true) :
    jsKeyString (coerceId v) = jsKeyString v := by
  cases v <;> simp_all [jsTruthy, coerceId, jsKeyString]

theorem coerceId_idem (v : JSVal) : coerceId (coerceId v) = coerceId v := by
  cases v <;> rfl

@[simp] theorem setTypeMap_heap (s : Store) (t : Nat) (tm : TypeMap) :
    (setTypeMap s t tm).heap = s.heap := rfl

@[simp] theorem setTypeMap_nextObj (s : Store) (t : Nat) (tm : TypeMap) :
    (setTypeMap s t tm).nextObj = s.nextObj := rfl

@[simp] theorem setTypeMap_adapterLog (s : Store) (t : Nat) (tm : TypeMap) :
    (setTypeMap s t tm).adapterLog = s.adapterLog := rfl

@[simp] theorem setTypeMap_arrays (s : Store) (t : Nat) (tm : TypeMap) :
    (setTypeMap s t tm).arrays = s.arrays := rfl

@[simp] theorem setTypeMap_pendingSave (s : Store) (t : Nat) (tm : TypeMap) :
    (setTypeMap s t tm).pendingSave = s.pendingSave := rfl

@[simp] theorem setTypeMap_resolvedLog (s : Store) (t : Nat) (tm : TypeMap) :
    (setTypeMap s t tm).resolvedLog = s.resolvedLog := rfl

theorem typeMapFor_setTypeMap_same (s : Store) (t : Nat) (tm : TypeMap) :
    typeMapFor (setTypeMap s t tm) t = (tm, setTypeMap s t tm) := by
  simp [typeMapFor, setTypeMap, show lookupA (setA s.typeMaps t tm) t = some tm from
    lookupA_setA_same s.typeMaps t tm]

theorem typeMapFor_stable (s : Store) (t : Nat) :
    typeMapFor (typeMapFor s t).2 t = typeMapFor s t := by
  cases h : lookupA s.typeMaps t with
  | some tm => simp [typeMapFor, h]
  | none =>
      have h2 : typeMapFor s t =
          (⟨[], [], [], none⟩, setTypeMap s t ⟨[], [], [], none⟩) := by
        simp [typeMapFor, h]
      rw [h2]
      exact typeMapFor_setTypeMap_same s t ⟨[], [], [], none⟩

@[simp] theorem typeMapFor_snd_heap (s : Store) (t : Nat) :
    (typeMapFor s t).2.heap = s.heap := by
  cases h : lookupA s.typeMaps t <;> simp [typeMapFor, h]

@[simp] theorem typeMapFor_snd_nextObj (s : Store) (t : Nat) :
    (typeMapFor s t).2.nextObj = s.nextObj := by
  cases h : lookupA s.typeMaps t <;> simp [typeMapFor, h]

@[simp] theorem typeMapFor_snd_adapterLog (s : Store) (t : Nat) :
    (typeMapFor s t).2.adapterLog = s.adapterLog := by
  cases h : lookupA s.typeMaps t <;> simp [typeMapFor, h]

@[simp] theorem typeMapFor_snd_arrays (s : Store) (t : Nat) :
    (typeMapFor s t).2.arrays = s.arrays := by
  cases h : lookupA s.typeMaps t <;> simp [typeMapFor, h]

/-- C7: `coerceId` maps null and undefined (and only those) to null, and every
other value, including numbers, to its string form; in particular
`coerce(1) = coerce("1")`, `coerce(null) = coerce(undefined) = null`, and
`coerce(0)` is not null. -/
theorem coerceId_contract :
    (∀ v : JSVal, coerceId v = JSVal.null ↔ (v = JSVal.null ∨ v = JSVal.undef)) ∧
    coerceId (JSVal.num 1) = coerceId (JSVal.str "1") ∧
    coerceId JSVal.null = coerceId JSVal.undef ∧
    coerceId (JSVal.num 0) ≠ JSVal.null ∧
    (∀ s : String, coerceId (JSVal.str s) = JSVal.str s) ∧
    (∀ n : Int, coerceId (JSVal.num n) = JSVal.str (toString n)) := by
  refine ⟨?_, rfl, rfl, by decide, fun s => rfl, fun n => rfl⟩
  intro v; cases v <;> simp [coerceId]

theorem hasRecordForId_eq (s : Store) (t : Nat) (id : JSVal) :
    hasRecordForId s t id =
      ((lookupA (typeMapFor s t).1.idToRecord (jsKeyString (coerceId id))).isSome,
       (typeMapFor s t).2) := rfl

theorem recordForId_eq (s : Store) (t : Nat) (id : JSVal) :
    recordForId s t id =
      match lookupA (typeMapFor s t).1.idToRecord (jsKeyString (coerceId id)) with
      | some rid => .ok (rid, (typeMapFor s t).2)
      | none => buildRecord (typeMapFor s t).2 t (coerceId id) none := rfl

theorem buildRecord_eq (s : Store) (t : Nat) (id : JSVal) (data : Option JSData) :
    buildRecord s t id data =
      (let tm := (typeMapFor s t).1
       let s1 := (typeMapFor s t).2
       if jsTruthy id && (lookupA tm.idToRecord (jsKeyString id)).isSome then
         .error "assert failed: the id has already been used with another record of this type"
       else
         let rid := s1.nextObj
         let record : RecordObj :=
           { type := t, id := id, state := .empty, isNew := false, isDeleted := false,
             willCommit := false }
         let record := match data with
           | some d => setupData record d
           | none => record
         let s2 := { s1 with heap := setA s1.heap rid record, nextObj := s1.nextObj + 1 }
         let tm2 :=
           if jsTruthy id then { tm with idToRecord := setA tm.idToRecord (jsKeyString id) rid }
           else tm
         let tm3 := { tm2 with records := tm2.records ++ [rid] }
         .ok (rid, setTypeMap s2 t tm3)) := rfl

theorem dematerializeRecord_eq (s : Store) (rid : Nat) :
    dematerializeRecord s rid =
      match lookupA s.heap rid with
      | none => s
      | some r =>
          (let tm := (typeMapFor s r.type).1
           let s1 := (typeMapFor s r.type).2
           let tm2 :=
             if jsTruthy r.id then
               { tm with idToRecord := removeA tm.idToRecord (jsKeyString r.id) }
             else tm
           let tm3 := { tm2 with records := spliceOne tm2.records (indexOfA tm2.records rid) }
           setTypeMap s1 r.type tm3) := rfl

theorem recordForId_hit (s : Store) (t : Nat) (id : JSVal) (rid : Nat)
    (hl : lookupA (typeMapFor s t).1.idToRecord (jsKeyString (coerceId id)) = some rid) :
    recordForId s t id = .ok (rid, (typeMapFor s t).2) := by
  rw [recordForId_eq, hl]

theorem recordForId_miss (s : Store) (t : Nat) (id : JSVal)
    (hl : lookupA (typeMapFor s t).1.idToRecord (jsKeyString (coerceId id)) = none) :
    recordForId s t id = buildRecord (typeMapFor s t).2 t (coerceId id) none := by
  rw [recordForId_eq, hl]

theorem buildRecord_fresh_truthy (s : Store) (t : Nat) (id : JSVal)
    (htr : jsTruthy id = true)
    (hl : lookupA (typeMapFor s t).1.idToRecord (jsKeyString id) = none) :
    buildRecord s t id none =
      .ok ((typeMapFor s t).2.nextObj,
        setTypeMap
          { (typeMapFor s t).2 with
              heap := setA (typeMapFor s t).2.heap (typeMapFor s t).2.nextObj
                ⟨t, id, .empty, false, false, false⟩,
              nextObj := (typeMapFor s t).2.nextObj + 1 }
          t
          { idToRecord := setA (typeMapFor s t).1.idToRecord (jsKeyString id)
              ((typeMapFor s t).2.nextObj),
            records := (typeMapFor s t).1.records ++ [(typeMapFor s t).2.nextObj],
            metadata := (typeMapFor s t).1.metadata,
            findAllCache := (typeMapFor s t).1.findAllCache }) := by
  rw [buildRecord_eq]
  simp [htr, hl]

theorem recordForId_second (s : Store) (t : Nat) (id : JSVal) (r1 : Nat) (s1 : Store)
    (htr : jsTruthy (coerceId id) = true)
    (h : recordForId s t id = .ok (r1, s1)) :
    recordForId s1 t id = .ok (r1, s1) := by
  cases hl : lookupA (typeMapFor s t).1.idToRecord (jsKeyString (coerceId id)) with
  | some rid =>
      rw [recordForId_hit s t id rid hl] at h
      simp only [Except.ok.injEq, Prod.mk.injEq] at h
      obtain ⟨rfl, rfl⟩ := h
      rw [recordForId_eq, typeMapFor_stable, hl]
  | none =>
      have hl2 : lookupA (typeMapFor (typeMapFor s t).2 t).1.idToRecord
          (jsKeyString (coerceId id)) = none := by
        rw [typeMapFor_stable]; exact hl
      rw [recordForId_miss s t id hl,
        buildRecord_fresh_truthy (typeMapFor s t).2 t (coerceId id) htr hl2,
        typeMapFor_stable] at h
      simp only [Except.ok.injEq, Prod.mk.injEq] at h
      obtain ⟨rfl, rfl⟩ := h
      rw [recordForId_eq, typeMapFor_setTypeMap_same]
      simp [lookupA_setA_same]

theorem buildRecord_refuses (s : Store) (t : Nat) (id : JSVal) (rid : Nat) (data : Option JSData)
    (htr : jsTruthy id = true)
    (hl : lookupA (typeMapFor s t).1.idToRecord (jsKeyString id) = some rid) :
    isError (buildRecord s t id data) = true := by
  rw [buildRecord_eq]
  simp [htr, hl, isError]

theorem recordForId_miss_fresh (s : Store) (t : Nat) (id : JSVal) (r2 : Nat) (s2 : Store)
    (hl : lookupA (typeMapFor s t).1.idToRecord (jsKeyString (coerceId id)) = none)
    (h : recordForId s t id = .ok (r2, s2)) :
    r2 = s.nextObj := by
  rw [recordForId_miss s t id hl] at h
  rw [buildRecord_eq, typeMapFor_stable] at h
  simp only [hl, Option.isSome_none, Bool.and_false, Bool.false_eq_true, if_false,
    Except.ok.injEq, Prod.mk.injEq, typeMapFor_snd_nextObj] at h
  exact h.1.symm

theorem dematerializeRecord_expand (s : Store) (rid : Nat) (r : RecordObj)
    (hheap : lookupA s.heap rid = some r)
    (htr : jsTruthy r.id = true) :
    dematerializeRecord s rid =
      setTypeMap (typeMapFor s r.type).2 r.type
        { idToRecord := removeA (typeMapFor s r.type).1.idToRecord (jsKeyString r.id),
          records := spliceOne ((typeMapFor s r.type).1.records)
            (indexOfA ((typeMapFor s r.type).1.records) rid),
          metadata := (typeMapFor s r.type).1.metadata,
          findAllCache := (typeMapFor s r.type).1.findAllCache } := by
  rw [dematerializeRecord_eq, hheap]
  simp [htr]

theorem recordForId_after_demat (s : Store) (rid : Nat) (r : RecordObj) (r2 : Nat) (s2 : Store)
    (hheap : lookupA s.heap rid = some r)
    (htr : jsTruthy r.id = true)
    (hlt : rid < s.nextObj)
    (h : recordForId (dematerializeRecord s rid) r.type r.id = .ok (r2, s2)) :
    r2 ≠ rid := by
  have hd := dematerializeRecord_expand s rid r hheap htr
  have hl2 : lookupA (typeMapFor (dematerializeRecord s rid) r.type).1.idToRecord
      (jsKeyString (coerceId r.id)) = none := by
    rw [hd, typeMapFor_setTypeMap_same]
    simp [jsKeyString_coerceId r.id htr, lookupA_removeA]
  have hr2 := recordForId_miss_fresh (dematerializeRecord s rid) r.type r.id r2 s2 hl2 h
  have hn : (dematerializeRecord s rid).nextObj = s.nextObj := by
    rw [hd]; simp
  omega

/-- C1 (amended: the identity-map guarantee holds for truthy canonical
identifiers — nonempty strings and nonzero numbers): (i) a second
`recordForId` lookup for the same (type, id) pair returns the same record
instance and leaves the store unchanged; (ii) `buildRecord` refuses to
construct a record for a truthy id already present in the type's
`idToRecord` index; (iii) after `dematerializeRecord` frees the id slot, a
subsequent lookup materializes a fresh instance, never the old one. -/
theorem identityMap_truthy_ids :
    (∀ (s : Store) (t : Nat) (id : JSVal) (r1 : Nat) (s1 : Store),
        jsTruthy (coerceId id) = true →
        recordForId s t id = .ok (r1, s1) →
        recordForId s1 t id = .ok (r1, s1)) ∧
    (∀ (s : Store) (t : Nat) (id : JSVal) (rid : Nat),
        jsTruthy id = true →
        lookupA (typeMapFor s t).1.idToRecord (jsKeyString id) = some rid →
        isError (buildRecord s t id none) = true) ∧
    (∀ (s : Store) (rid : Nat) (r : RecordObj) (r2 : Nat) (s2 : Store),
        lookupA s.heap rid = some r →
        jsTruthy r.id = true →
        rid < s.nextObj →
        recordForId (dematerializeRecord s rid) r.type r.id = .ok (r2, s2) →
        r2 ≠ rid) :=
  ⟨fun s t id r1 s1 htr h => recordForId_second s t id r1 s1 htr h,
   fun s t id rid htr hl => buildRecord_refuses s t id rid none htr hl,
   fun s rid r r2 s2 hheap htr hlt h => recordForId_after_demat s rid r r2 s2 hheap htr hlt h⟩

/-- The store after one `recordForId` materialization of (type 0, id "1")
from a fresh store; used to instantiate the identity-map theorem. -/
def s1Demo : Store :=
  { typeMaps := [(0, { idToRecord := [("1", 0)], records := [0], metadata := [],
                       findAllCache := none })],
    heap := [(0, { type := 0, id := JSVal.str "1", state := RecState.empty, isNew := false,
                   isDeleted := false, willCommit := false })],
    arrays := [], nextObj := 1, pendingSave := [], flushScheduled := false,
    adapterLog := [], resolvedLog := [] }

/-- C1 witness: the identity-map theorem instantiated at concrete inputs —
a second lookup of (type 0, id "1") returns record 0 and leaves the store
unchanged, `buildRecord` refuses a duplicate for the indexed id "1", and the
record materialized after dematerializing record 0 is a fresh instance. -/
theorem identityMap_truthy_ids_witness :
    recordForId s1Demo 0 (JSVal.str "1") = .ok (0, s1Demo) ∧
    isError (buildRecord s1Demo 0 (JSVal.str "1") none) = true ∧
    (1 : Nat) ≠ 0 :=
  ⟨identityMap_truthy_ids.1 Store.init 0 (JSVal.str "1") 0 s1Demo (by decide) rfl,
   identityMap_truthy_ids.2.1 s1Demo 0 (JSVal.str "1") 0 (by decide) (by decide),
   identityMap_truthy_ids.2.2 s1Demo 0
     ⟨0, JSVal.str "1", RecState.empty, false, false, false⟩ 1
     ((recordForId (dematerializeRecord s1Demo 0) 0 (JSVal.str "1")).toOption.getD
       (0, Store.init)).2
     (by decide) (by decide) (by decide) rfl⟩

/-- C1 counterexample: the empty string is a canonical (non-null) identifier,
yet two successive `recordForId` lookups for (type 0, id "") materialize two
distinct record instances (0, then 1), because `buildRecord` only indexes
truthy ids — the claimed at-most-one-record guarantee fails as stated. -/
theorem recordForId_empty_string_duplicate :
    (recordForId Store.init 0 (JSVal.str "")).bind
        (fun p => (recordForId p.2 0 (JSVal.str "")).map (fun q => (p.1, q.1))) =
      .ok (0, 1) ∧ (0 : Nat) ≠ 1 :=
  ⟨rfl, by decide⟩

theorem getById_eq (s : Store) (t : Nat) (id : JSVal) :
    getById s t id =
      if (lookupA (typeMapFor s t).1.idToRecord (jsKeyString (coerceId id))).isSome then
        recordForId (typeMapFor s t).2 t id
      else buildRecord (typeMapFor s t).2 t id none := rfl

theorem buildRecord_not_error (s : Store) (t : Nat) (id : JSVal) (data : Option JSData)
    (h : (jsTruthy id && (lookupA (typeMapFor s t).1.idToRecord (jsKeyString id)).isSome)
        = false) :
    ∃ rid s2, buildRecord s t id data = .ok (rid, s2) := by
  rw [buildRecord_eq]
  simp only [h, Bool.false_eq_true, if_false]
  exact ⟨_, _, rfl⟩

theorem getById_total (s : Store) (t : Nat) (id : JSVal) :
    ∃ rid s2, getById s t id = .ok (rid, s2) := by
  rw [getById_eq]
  cases hl : lookupA (typeMapFor s t).1.idToRecord (jsKeyString (coerceId id)) with
  | some rid =>
      simp only [hl, Option.isSome_some, if_true]
      have hl2 : lookupA (typeMapFor (typeMapFor s t).2 t).1.idToRecord
          (jsKeyString (coerceId id)) = some rid := by
        rw [typeMapFor_stable]; exact hl
      exact ⟨rid, _, recordForId_hit (typeMapFor s t).2 t id rid hl2⟩
  | none =>
      simp only [hl, Option.isSome_none, Bool.false_eq_true, if_false]
      apply buildRecord_not_error
      cases ht : jsTruthy id with
      | false => simp
      | true =>
          have hl2 : lookupA (typeMapFor (typeMapFor s t).2 t).1.idToRecord
              (jsKeyString id) = none := by
            rw [typeMapFor_stable, ← jsKeyString_coerceId id ht]; exact hl
          simp [hl2]

theorem getById_fresh (s : Store) (t : Nat) (id : JSVal) (rid : Nat) (s2 : Store)
    (hfresh : (hasRecordForId s t id).1 = false)
    (htr : jsTruthy id = true)
    (h : getById s t id = .ok (rid, s2)) :
    lookupA (typeMapFor s2 t).1.idToRecord (jsKeyString id) = some rid ∧
    (typeMapFor s2 t).1.records = (typeMapFor s t).1.records ++ [rid] ∧
    lookupA s2.heap rid = some ⟨t, id, .empty, false, false, false⟩ ∧
    rid = s.nextObj := by
  rw [hasRecordForId_eq] at hfresh
  have hl : lookupA (typeMapFor s t).1.idToRecord (jsKeyString (coerceId id)) = none := by
    cases hx : lookupA (typeMapFor s t).1.idToRecord (jsKeyString (coerceId id)) with
    | none => rfl
    | some v => rw [hx] at hfresh; simp at hfresh
  have hl2 : lookupA (typeMapFor s t).1.idToRecord (jsKeyString id) = none := by
    rwa [jsKeyString_coerceId id htr] at hl
  rw [getById_eq, hl] at h
  simp only [Option.isSome_none, Bool.false_eq_true, if_false] at h
  have hl3 : lookupA (typeMapFor (typeMapFor s t).2 t).1.idToRecord (jsKeyString id) = none := by
    rw [typeMapFor_stable]; exact hl2
  rw [buildRecord_fresh_truthy (typeMapFor s t).2 t id htr hl3, typeMapFor_stable] at h
  simp only [Except.ok.injEq, Prod.mk.injEq] at h
  obtain ⟨rfl, rfl⟩ := h
  refine ⟨?_, ?_, ?_, ?_⟩
  · rw [typeMapFor_setTypeMap_same]
    simp [lookupA_setA_same]
  · rw [typeMapFor_setTypeMap_same]
  · simp [lookupA_setA_same]
  · simp

/-- C10 (amended: registration happens for truthy ids, not all non-null ids):
`getById` never fails and never returns nothing — for every store, type and
id it produces a record instance; when no record existed for the id and the
id is truthy, the lookup mutates the store by materializing a fresh empty
shell record, indexing it under the id in the type map's `idToRecord` and
appending it to the type's ordered record list. -/
theorem getById_materializes :
    (∀ (s : Store) (t : Nat) (id : JSVal), ∃ rid s2, getById s t id = .ok (rid, s2)) ∧
    (∀ (s : Store) (t : Nat) (id : JSVal) (rid : Nat) (s2 : Store),
        (hasRecordForId s t id).1 = false →
        jsTruthy id = true →
        getById s t id = .ok (rid, s2) →
        lookupA (typeMapFor s2 t).1.idToRecord (jsKeyString id) = some rid ∧
        (typeMapFor s2 t).1.records = (typeMapFor s t).1.records ++ [rid] ∧
        lookupA s2.heap rid = some ⟨t, id, .empty, false, false, false⟩ ∧
        rid = s.nextObj) :=
  ⟨getById_total,
   fun s t id rid s2 hfresh htr h => getById_fresh s t id rid s2 hfresh htr h⟩

/-- C10 witness: the materialization theorem instantiated — a fresh store has
no record for (type 0, id "1"); after `getById` the new record 0 is indexed
under "1", appended to the record list, and sits in the heap as an empty
shell. -/
theorem getById_materializes_witness :
    lookupA (typeMapFor s1Demo 0).1.idToRecord (jsKeyString (JSVal.str "1")) = some 0 ∧
    (typeMapFor s1Demo 0).1.records = (typeMapFor Store.init 0).1.records ++ [0] ∧
    lookupA s1Demo.heap 0 =
      some ⟨0, JSVal.str "1", RecState.empty, false, false, false⟩ ∧
    (0 : Nat) = Store.init.nextObj :=
  getById_materializes.2 Store.init 0 (JSVal.str "1") 0 s1Demo (by decide) (by decide) rfl

/-- C10 counterexample: for the non-null id "" (empty string), `getById` on a
fresh store materializes record 0 and appends it to the record list, but does
not register it in `idToRecord` (the source guards the registration with JS
truthiness, not a non-null test), refuting the claim's
"registers ... when the id is non-null". -/
theorem getById_empty_string_unregistered :
    (getById Store.init 0 (JSVal.str "")).map
        (fun p =>
          (p.1, lookupA (typeMapFor p.2 0).1.idToRecord "", (typeMapFor p.2 0).1.records)) =
      .ok (0, none, [0]) ∧ JSVal.str "" ≠ JSVal.null :=
  ⟨rfl, by decide⟩

/-- Two successive `findById` calls for the same (type, id) pair, starting
from a fresh store, exposing the promise returned to each caller, the record
each call was about, and the final store. -/
def findByIdTwice (t : Nat) (id : JSVal) : Except String (Nat × Nat × Nat × Nat × Store) := do
  let (p1, r1, s1) ← findById Store.init t id
  let (p2, r2, s2) ← findById s1 t id
  pure (p1, r1, p2, r2, s2)

/-- C2 (amended: in-flight deduplication holds for truthy identifiers and
yields one adapter call but not one shared future): for a truthy canonical
identifier (nonempty string, nonzero number), when `findById` is invoked a
second time for the same (type, id) while the first fetch is outstanding,
the adapter's `find` hook is invoked exactly once in total and both calls
concern the same record instance, but the callers observe different futures
— the second caller gets a fresh, immediately-resolved promise
(`resolve(record)`), not the first caller's pending future; deduplication
works because the record has left the empty state, not by keying in-flight
fetches.  For the empty-string identifier (canonical and non-null, but
JS-falsy, so `buildRecord` never indexes the record) the deduplication fails
entirely: each `findById` materializes a fresh record instance (0, then 2)
and issues its own adapter `find` call. -/
theorem findById_dedup_single_adapter_call :
    (∀ (t : Nat) (id : JSVal), jsTruthy id = true →
        (findByIdTwice t id).map
            (fun o => (o.1, o.2.1, o.2.2.1, o.2.2.2.1,
              o.2.2.2.2.adapterLog, o.2.2.2.2.resolvedLog))
          = .ok (1, 0, 2, 0, [AdapterCall.find t id 1], [2])) ∧
    (∀ t : Nat,
        (findByIdTwice t (JSVal.str "")).map
            (fun o => (o.1, o.2.1, o.2.2.1, o.2.2.2.1,
              o.2.2.2.2.adapterLog, o.2.2.2.2.resolvedLog))
          = .ok (1, 0, 3, 2,
              [AdapterCall.find t (JSVal.str "") 1, AdapterCall.find t (JSVal.str "") 3],
              [])) := by
  constructor
  · intro t id htr
    simp [findByIdTwice, findById, getById, hasRecordForId, recordForId, buildRecord,
      fetchRecord, typeMapFor, Store.init, setTypeMap, lookupA, setA, removeA, htr,
      jsKeyString_coerceId id htr, isEmptyRec, loadingData, Except.bind, bind, pure,
      Except.pure, Except.map]
  · intro t
    simp [findByIdTwice, findById, getById, hasRecordForId, recordForId, buildRecord,
      fetchRecord, typeMapFor, Store.init, setTypeMap, lookupA, setA, removeA, jsTruthy,
      jsKeyString, coerceId, isEmptyRec, loadingData, Except.bind, bind, pure,
      Except.pure, Except.map]

/-- C2 witness: the deduplication theorem instantiated at (type 0, id "1") —
one adapter `find` call, record 0 for both callers, promises 1 and 2. -/
theorem findById_dedup_single_adapter_call_witness :
    (findByIdTwice 0 (JSVal.str "1")).map
        (fun o => (o.1, o.2.1, o.2.2.1, o.2.2.2.1, o.2.2.2.2.adapterLog, o.2.2.2.2.resolvedLog))
      = .ok (1, 0, 2, 0, [AdapterCall.find 0 (JSVal.str "1") 1], [2]) :=
  findById_dedup_single_adapter_call.1 0 (JSVal.str "1") (by decide)

/-- C2 counterexample: the two callers do not observe the same future — the
first `findById` returns the pending deferred promise 1, the second returns a
fresh already-resolved promise 2, refuting the claim that both callers
observe the same future. -/
theorem findById_second_future_differs :
    (findByIdTwice 0 (JSVal.str "1")).map (fun o => (o.1, o.2.2.1)) = .ok (1, 2) ∧
    (1 : Nat) ≠ 2 :=
  ⟨rfl, by decide⟩

@[simp] theorem scheduleSave_pendingSave (s : Store) (rid res : Nat) :
    (scheduleSave s rid res).pendingSave = s.pendingSave ++ [(rid, res)] := rfl

@[simp] theorem scheduleSave_adapterLog (s : Store) (rid res : Nat) :
    (scheduleSave s rid res).adapterLog = s.adapterLog := rfl

theorem saveCallOf_of_heap (s1 s2 : Store) (h : s1.heap = s2.heap) (e : Nat × Nat) :
    saveCallOf s1 e = saveCallOf s2 e := by
  simp [saveCallOf, h]

@[simp] theorem flushEntry_heap (s : Store) (e : Nat × Nat) :
    (flushEntry s e).heap = s.heap := by
  cases h : saveCallOf s e <;> simp [flushEntry, h]

@[simp] theorem flushEntry_pendingSave (s : Store) (e : Nat × Nat) :
    (flushEntry s e).pendingSave = s.pendingSave := by
  cases h : saveCallOf s e <;> simp [flushEntry, h]

theorem foldl_flushEntry_adapterLog (l : List (Nat × Nat)) (s : Store) :
    (l.foldl flushEntry s).adapterLog = s.adapterLog ++ l.filterMap (saveCallOf s) := by
  induction l generalizing s with
  | nil => simp
  | cons e rest ih =>
      rw [List.foldl_cons, ih]
      have hcongr : rest.filterMap (saveCallOf (flushEntry s e))
          = rest.filterMap (saveCallOf s) :=
        List.filterMap_congr (fun e2 _ => saveCallOf_of_heap _ _ (flushEntry_heap s e) e2)
      rw [hcongr]
      cases h : saveCallOf s e with
      | none => simp [flushEntry, h, List.filterMap_cons, h]
      | some c => simp [flushEntry, h, List.filterMap_cons, h]

theorem foldl_scheduleSave_adapterLog (l : List (Nat × Nat)) (s : Store) :
    (l.foldl (fun s2 e => scheduleSave s2 e.1 e.2) s).adapterLog = s.adapterLog := by
  induction l generalizing s with
  | nil => rfl
  | cons e rest ih => rw [List.foldl_cons, ih, scheduleSave_adapterLog]

@[simp] theorem flushPendingSave_pendingSave (s : Store) (during : List (Nat × Nat)) :
    (flushPendingSave s during).pendingSave = [] := rfl

theorem flushPendingSave_adapterLog (s : Store) (during : List (Nat × Nat)) :
    (flushPendingSave s during).adapterLog
      = s.adapterLog ++ s.pendingSave.filterMap (saveCallOf s) := by
  show (during.foldl (fun s2 e => scheduleSave s2 e.1 e.2)
      (s.pendingSave.foldl flushEntry { s with flushScheduled := false })).adapterLog
    = s.adapterLog ++ s.pendingSave.filterMap (saveCallOf s)
  rw [foldl_scheduleSave_adapterLog, foldl_flushEntry_adapterLog]
  have : s.pendingSave.filterMap (saveCallOf { s with flushScheduled := false })
      = s.pendingSave.filterMap (saveCallOf s) :=
    List.filterMap_congr (fun e _ => saveCallOf_of_heap _ _ rfl e)
  rw [this]

/-- C3 (amended: entries added during the flush itself are lost, not
deferred): every entry in the pending-save queue at the moment the flush
begins is dispatched to the adapter exactly once, in order, and the queue is
then reset; a second flush dispatches nothing further — in particular,
`scheduleSave` entries pushed while the flush loop runs (`during`) are
discarded by the final queue reset without ever being dispatched.  Entries
added after the flush completes are dispatched by the next flush. -/
theorem flushPendingSave_snapshot_once :
    ∀ (s : Store) (during : List (Nat × Nat)) (rid res : Nat),
      (flushPendingSave s during).adapterLog
        = s.adapterLog ++ s.pendingSave.filterMap (saveCallOf s) ∧
      (flushPendingSave s during).pendingSave = [] ∧
      (flushPendingSave (flushPendingSave s during) []).adapterLog
        = (flushPendingSave s during).adapterLog ∧
      (flushPendingSave (scheduleSave (flushPendingSave s during) rid res) []).adapterLog
        = (flushPendingSave s during).adapterLog
          ++ [(rid, res)].filterMap
              (saveCallOf (scheduleSave (flushPendingSave s during) rid res)) := by
  intro s during rid res
  refine ⟨flushPendingSave_adapterLog s during, rfl, ?_, ?_⟩
  · rw [flushPendingSave_adapterLog, flushPendingSave_pendingSave]
    simp
  · rw [flushPendingSave_adapterLog, scheduleSave_adapterLog, scheduleSave_pendingSave,
      flushPendingSave_pendingSave, List.nil_append]

/-- A locally created (new, not yet persisted) record object used by the
persistence-scheduler scenarios. -/
def rNew : RecordObj :=
  { type := 0, id := JSVal.null, state := RecState.loaded, isNew := true, isDeleted := false,
    willCommit := false }

/-- A store with two new records (0 and 1) and record 0 already queued for
save; used to exercise the flush. -/
def sC3 : Store :=
  { typeMaps := [], heap := [(0, rNew), (1, rNew)], arrays := [], nextObj := 2,
    pendingSave := [(0, 10)], flushScheduled := true, adapterLog := [], resolvedLog := [] }

/-- C3 counterexample: record 1 is scheduled (entry (1, 11)) while the flush
loop is running; the flush dispatches only the snapshot entry (0, 10), resets
the queue, and the next flush dispatches nothing — the mid-flush entry is
silently dropped, never reaching the adapter, refuting the claim that such an
entry "is not lost but is flushed in the next tick". -/
theorem flush_drops_midflush_entry :
    (flushPendingSave sC3 [(1, 11)]).adapterLog = [AdapterCall.createRecord 0 0 10] ∧
    (flushPendingSave sC3 [(1, 11)]).pendingSave = [] ∧
    (flushPendingSave (flushPendingSave sC3 [(1, 11)]) []).adapterLog
      = [AdapterCall.createRecord 0 0 10] :=
  ⟨rfl, rfl, rfl⟩

/-- C4 (amended: `scheduleSave` is not idempotent within a tick — it enqueues
one entry per call): two `scheduleSave` calls for the same record before the
flush enqueue two queue entries (the per-record count rises by two), and the
flush dispatches one adapter commit call per entry, so the record is
dispatched twice; only the flush invocation itself is coalesced by the
run-loop `once`. -/
theorem scheduleSave_enqueues_per_call :
    ∀ (s : Store) (rid r1 r2 : Nat),
      (scheduleSave (scheduleSave s rid r1) rid r2).pendingSave
        = s.pendingSave ++ [(rid, r1), (rid, r2)] ∧
      (flushPendingSave (scheduleSave (scheduleSave s rid r1) rid r2) []).adapterLog
        = s.adapterLog
          ++ (s.pendingSave ++ [(rid, r1), (rid, r2)]).filterMap
              (saveCallOf (scheduleSave (scheduleSave s rid r1) rid r2)) ∧
      ((scheduleSave (scheduleSave s rid r1) rid r2).pendingSave.countP (fun e => e.1 == rid))
        = s.pendingSave.countP (fun e => e.1 == rid) + 2 := by
  intro s rid r1 r2
  refine ⟨by simp, ?_, ?_⟩
  · rw [flushPendingSave_adapterLog, scheduleSave_adapterLog, scheduleSave_adapterLog,
      scheduleSave_pendingSave, scheduleSave_pendingSave, List.append_assoc]
    rfl
  · simp [List.countP_append, List.countP_cons]

/-- A store with one new record (0) and an empty save queue. -/
def sC4 : Store :=
  { typeMaps := [], heap := [(0, rNew)], arrays := [], nextObj := 1, pendingSave := [],
    flushScheduled := false, adapterLog := [], resolvedLog := [] }

/-- C4 counterexample: calling `scheduleSave` twice for record 0 within one
tick queues the record twice and the flush dispatches two `createRecord`
adapter calls for it, refuting the claim that the record is queued (and
dispatched) only once. -/
theorem scheduleSave_twice_double_dispatch :
    (scheduleSave (scheduleSave sC4 0 10) 0 11).pendingSave = [(0, 10), (0, 11)] ∧
    (flushPendingSave (scheduleSave (scheduleSave sC4 0 10) 0 11) []).adapterLog
      = [AdapterCall.createRecord 0 0 10, AdapterCall.createRecord 0 0 11] :=
  ⟨rfl, rfl⟩

/-- C5: `updateId` (reached via `didSaveRecord` with data) behaves as claimed
— it accepts and indexes a first server id and rejects a different second id
— but `didReceiveId` is broken in the source: its assert compares the old id
against `undefined` while every client-created record carries id `null`
(createRecord explicitly assigns the coerced null), so the assert fires for
exactly the records `didReceiveId` is documented to serve; and on the path
where the assert passes, the function writes to `typeMap.idToCid`, a
structure `typeMapFor` never creates, so it throws a TypeError.
`didReceiveId` can never succeed and never indexes the id. -/
theorem didReceiveId_never_succeeds :
    ((createRecord Store.init 0 JSVal.undef).bind
        (fun p => didReceiveId p.2 p.1 (JSVal.str "42")))
      = .error
        "assert failed: an adapter cannot assign a new id to a record that already has an id" ∧
    ((getById Store.init 0 JSVal.undef).bind
        (fun p => didReceiveId p.2 p.1 (JSVal.str "42")))
      = .error "TypeError: cannot set property of undefined typeMap idToCid" ∧
    ((createRecord Store.init 0 JSVal.undef).bind
        (fun p => (didSaveRecord p.2 p.1 (some ⟨JSVal.str "2"⟩)).map
          (fun s3 => lookupA (typeMapFor s3 0).1.idToRecord "2")))
      = .ok (some 0) ∧
    ((createRecord Store.init 0 JSVal.undef).bind
        (fun p => (didSaveRecord p.2 p.1 (some ⟨JSVal.str "2"⟩)).bind
          (fun s3 => didSaveRecord s3 p.1 (some ⟨JSVal.str "3"⟩))))
      = .error
        "assert failed: an adapter cannot assign a new id to a record that already has an id" :=
  ⟨rfl, rfl, rfl, rfl⟩

theorem fetchAll_eq (s : Store) (t : Nat) (aid : Nat) :
    fetchAll s t aid =
      ((typeMapFor s t).2.nextObj,
       { (typeMapFor s t).2 with
           nextObj := (typeMapFor s t).2.nextObj + 1,
           arrays := updateA (typeMapFor s t).2.arrays aid
             (fun a => { a with isUpdating := true }),
           adapterLog := (typeMapFor s t).2.adapterLog
             ++ [.findAll t (sinceTokenOf (typeMapFor s t).2 t) ((typeMapFor s t).2.nextObj)] }) :=
  rfl

theorem sinceTokenOf_stable (s : Store) (t : Nat) :
    sinceTokenOf (typeMapFor s t).2 t = sinceTokenOf s t := by
  unfold sinceTokenOf
  rw [typeMapFor_stable]

theorem didUpdateAll_eq (s : Store) (t : Nat) :
    didUpdateAll s t =
      match (typeMapFor s t).1.findAllCache with
      | none => .error "TypeError: cannot set isUpdating of undefined findAllCache"
      | some aid =>
          .ok { (typeMapFor s t).2 with
              arrays := updateA (typeMapFor s t).2.arrays aid
                (fun a => { a with isUpdating := false }) } := rfl

/-- C6 (amended: `fetchAll` never consults `isUpdating`): every `fetchAll`
call — including a second call made while the first is outstanding and the
flag is still set — appends exactly one adapter `findAll` request keyed by
the stored since token and re-sets `isUpdating` on the array; the flag is
cleared by `didUpdateAll` but no store code ever reads it to suppress a
request. -/
theorem fetchAll_unconditional_request :
    (∀ (s : Store) (t : Nat) (aid : Nat),
        (fetchAll s t aid).2.adapterLog
          = s.adapterLog ++ [.findAll t (sinceTokenOf s t) ((fetchAll s t aid).1)] ∧
        lookupA (fetchAll s t aid).2.arrays aid
          = (lookupA s.arrays aid).map (fun a => { a with isUpdating := true }) ∧
        (fetchAll (fetchAll s t aid).2 t aid).2.adapterLog
          = (fetchAll s t aid).2.adapterLog
            ++ [.findAll t (sinceTokenOf (fetchAll s t aid).2 t)
                ((fetchAll (fetchAll s t aid).2 t aid).1)]) ∧
    (∀ (s : Store) (t : Nat) (aid : Nat),
        (typeMapFor s t).1.findAllCache = some aid →
        didUpdateAll s t
          = .ok { (typeMapFor s t).2 with
              arrays := updateA (typeMapFor s t).2.arrays aid
                (fun a => { a with isUpdating := false }) }) := by
  constructor
  · intro s t aid
    refine ⟨?_, ?_, ?_⟩
    · rw [fetchAll_eq]
      simp [sinceTokenOf_stable]
    · rw [fetchAll_eq]
      simp [lookupA_updateA]
    · rw [fetchAll_eq (fetchAll s t aid).2 t aid]
      simp [sinceTokenOf_stable]
  · intro s t aid h
    rw [didUpdateAll_eq, h]

/-- The store after `all(type 0)` on a fresh store: the singleton all-array 0
is cached in the type map. -/
def sAllDemo : Store :=
  { typeMaps := [(0, { idToRecord := [], records := [], metadata := [],
                       findAllCache := some 0 })],
    heap := [],
    arrays := [(0, { atype := 0, content := [], isUpdating := false, isLoaded := true,
                     loadingCount := 0 })],
    nextObj := 1, pendingSave := [], flushScheduled := false, adapterLog := [],
    resolvedLog := [] }

/-- C6 witness: `didUpdateAll` instantiated on a store whose all-array exists
— it clears the `isUpdating` flag of the cached array. -/
theorem fetchAll_unconditional_request_witness :
    didUpdateAll sAllDemo 0
      = .ok { (typeMapFor sAllDemo 0).2 with
          arrays := updateA (typeMapFor sAllDemo 0).2.arrays 0
            (fun a => { a with isUpdating := false }) } :=
  fetchAll_unconditional_request.2 sAllDemo 0 0 (by decide)

/-- C6 counterexample: with the all-array's `isUpdating` flag set by a first
`fetchAll` (first conjunct shows the flag is true afterwards), a second
`fetchAll` call still issues a second adapter `findAll` request — the log
holds two requests — refuting the claim that the outstanding flag prevents a
second network call. -/
theorem fetchAll_second_call_hits_adapter :
    lookupA (fetchAll sAllDemo 0 0).2.arrays 0
      = some { atype := 0, content := [], isUpdating := true, isLoaded := true,
               loadingCount := 0 } ∧
    (fetchAll (fetchAll sAllDemo 0 0).2 0 0).2.adapterLog
      = [AdapterCall.findAll 0 JSVal.undef 1, AdapterCall.findAll 0 JSVal.undef 2] :=
  ⟨rfl, rfl⟩

theorem all_eq (s : Store) (t : Nat) :
    all s t =
      match (typeMapFor s t).1.findAllCache with
      | some aid => (aid, (typeMapFor s t).2)
      | none =>
          ((typeMapFor s t).2.nextObj,
           setTypeMap
             { (typeMapFor s t).2 with
                 nextObj := (typeMapFor s t).2.nextObj + 1,
                 arrays := setA (typeMapFor s t).2.arrays (typeMapFor s t).2.nextObj
                   { atype := t, content := [], isUpdating := false, isLoaded := true,
                     loadingCount := 0 } }
             t { (typeMapFor s t).1 with findAllCache := some ((typeMapFor s t).2.nextObj) }) :=
  rfl

theorem findAll_eq (s : Store) (t : Nat) :
    findAll s t = fetchAll (all s t).2 t (all s t).1 := rfl

theorem all_idem (s : Store) (t : Nat) : all (all s t).2 t = all s t := by
  cases hc : (typeMapFor s t).1.findAllCache with
  | some aid =>
      rw [all_eq s t, hc]
      simp only []
      rw [all_eq ((typeMapFor s t).2) t, typeMapFor_stable, hc]
  | none =>
      rw [all_eq s t, hc]
      simp only []
      rw [all_eq _ t, typeMapFor_setTypeMap_same]

theorem sinceTokenOf_eq (s : Store) (t : Nat) :
    sinceTokenOf s t =
      match lookupA (typeMapFor s t).1.metadata "since" with
      | some v => v
      | none => JSVal.undef := rfl

theorem sinceTokenOf_setTypeMap (s : Store) (t : Nat) (tm : TypeMap) :
    sinceTokenOf (setTypeMap s t tm) t =
      match lookupA tm.metadata "since" with
      | some v => v
      | none => JSVal.undef := by
  rw [sinceTokenOf_eq, typeMapFor_setTypeMap_same]

theorem findAll_fresh (s : Store) (t : Nat)
    (hc : (typeMapFor s t).1.findAllCache = none) :
    (all s t).1 = s.nextObj ∧
    (findAll s t).1 = s.nextObj + 1 ∧
    (findAll s t).1 ≠ (all s t).1 ∧
    (findAll s t).2.adapterLog
      = s.adapterLog ++ [.findAll t (sinceTokenOf s t) (s.nextObj + 1)] ∧
    lookupA (findAll s t).2.arrays (all s t).1
      = some { atype := t, content := [], isUpdating := true, isLoaded := true,
               loadingCount := 0 } := by
  have h1 : (all s t).1 = s.nextObj := by
    rw [all_eq s t, hc]
    simp
  have h2 : (findAll s t).1 = s.nextObj + 1 := by
    rw [findAll_eq, all_eq s t, hc]
    simp [fetchAll_eq, typeMapFor_setTypeMap_same]
  refine ⟨h1, h2, ?_, ?_, ?_⟩
  · rw [h1, h2]; omega
  · rw [findAll_eq, all_eq s t, hc]
    simp [fetchAll_eq, typeMapFor_setTypeMap_same, sinceTokenOf_setTypeMap, sinceTokenOf_eq]
  · rw [h1, findAll_eq, all_eq s t, hc]
    simp [fetchAll_eq, typeMapFor_setTypeMap_same, lookupA_updateA, lookupA_setA]

/-- C9 (amended: `findAll`/`fetchAll` return a fresh promise, not the
collection): `all` is idempotent — repeated calls return the same singleton
array instance and leave the store unchanged — and `findAll` on a type with
no cached collection creates the singleton (object `s.nextObj`), triggers
exactly one adapter `findAll` keyed by the stored since token, and sets
`isUpdating` on the singleton; but the value `findAll` returns is the freshly
allocated deferred promise (`s.nextObj + 1`), a different object from the
singleton collection. -/
theorem all_singleton_and_findAll :
    (∀ (s : Store) (t : Nat), all (all s t).2 t = all s t) ∧
    (∀ (s : Store) (t : Nat),
        (typeMapFor s t).1.findAllCache = none →
        (all s t).1 = s.nextObj ∧
        (findAll s t).1 = s.nextObj + 1 ∧
        (findAll s t).1 ≠ (all s t).1 ∧
        (findAll s t).2.adapterLog
          = s.adapterLog ++ [.findAll t (sinceTokenOf s t) (s.nextObj + 1)] ∧
        lookupA (findAll s t).2.arrays (all s t).1
          = some { atype := t, content := [], isUpdating := true, isLoaded := true,
                   loadingCount := 0 }) :=
  ⟨all_idem, fun s t hc => findAll_fresh s t hc⟩

/-- C9 witness: the theorem instantiated on a fresh store — the singleton is
object 0, `findAll` returns promise 1 (not the singleton), the adapter gets
one `findAll` call with the (unset) since token, and the singleton is marked
updating. -/
theorem all_singleton_and_findAll_witness :
    (all Store.init 0).1 = Store.init.nextObj ∧
    (findAll Store.init 0).1 = Store.init.nextObj + 1 ∧
    (findAll Store.init 0).1 ≠ (all Store.init 0).1 ∧
    (findAll Store.init 0).2.adapterLog
      = Store.init.adapterLog
        ++ [.findAll 0 (sinceTokenOf Store.init 0) (Store.init.nextObj + 1)] ∧
    lookupA (findAll Store.init 0).2.arrays (all Store.init 0).1
      = some { atype := 0, content := [], isUpdating := true, isLoaded := true,
               loadingCount := 0 } :=
  all_singleton_and_findAll.2 Store.init 0 (by decide)

/-- C9 counterexample: on a fresh store the singleton all-collection is
object 0, but `findAll` returns object 1, which is not the collection — it is
not even a record array in the resulting store (it is the deferred promise
handed to the adapter), refuting the claim that `findAll` returns the type's
singleton all collection. -/
theorem findAll_returns_promise_not_array :
    (all Store.init 0).1 = 0 ∧
    (findAll Store.init 0).1 = 1 ∧
    (1 : Nat) ≠ 0 ∧
    lookupA (findAll Store.init 0).2.arrays 1 = none :=
  ⟨rfl, rfl, by decide, rfl⟩

@[simp] theorem loadingMark_adapterLog (s : Store) (rid : Nat) :
    (loadingMark s rid).adapterLog = s.adapterLog := by
  unfold loadingMark
  cases h : lookupA s.heap rid <;> rfl

theorem loadingMark_typeId (s : Store) (rid rid2 : Nat) :
    (lookupA (loadingMark s rid).heap rid2).map (fun r => (r.type, r.id))
      = (lookupA s.heap rid2).map (fun r => (r.type, r.id)) := by
  unfold loadingMark
  cases h : lookupA s.heap rid with
  | none => rfl
  | some r =>
      simp only []
      by_cases h2 : rid = rid2
      · subst h2
        simp [lookupA_setA, h, loadingData]
      · simp [lookupA_setA, h2]

theorem markFold_adapterLog (l : List Nat) (s : Store) :
    (l.foldl loadingMark s).adapterLog = s.adapterLog := by
  induction l generalizing s with
  | nil => rfl
  | cons rid rest ih => rw [List.foldl_cons, ih, loadingMark_adapterLog]

theorem markFold_typeId (l : List Nat) (s : Store) (rid2 : Nat) :
    (lookupA (l.foldl loadingMark s).heap rid2).map (fun r => (r.type, r.id))
      = (lookupA s.heap rid2).map (fun r => (r.type, r.id)) := by
  induction l generalizing s with
  | nil => rfl
  | cons rid rest ih => rw [List.foldl_cons, ih, loadingMark_typeId]

theorem idOf_of_typeId (s1 s2 : Store) (rid : Nat)
    (h : (lookupA s1.heap rid).map (fun r => (r.type, r.id))
        = (lookupA s2.heap rid).map (fun r => (r.type, r.id))) :
    idOf s1 rid = idOf s2 rid := by
  unfold idOf
  cases h1 : lookupA s1.heap rid <;> cases h2 : lookupA s2.heap rid <;>
    rw [h1, h2] at h <;> simp_all

theorem typeRead_of_typeId (s1 s2 : Store) (rid : Nat)
    (h : (lookupA s1.heap rid).map (fun r => (r.type, r.id))
        = (lookupA s2.heap rid).map (fun r => (r.type, r.id))) :
    (lookupA s1.heap rid).map (fun r => r.type)
      = (lookupA s2.heap rid).map (fun r => r.type) := by
  cases h1 : lookupA s1.heap rid <;> cases h2 : lookupA s2.heap rid <;>
    rw [h1, h2] at h <;> simp_all

theorem groupFold_congr (s1 s2 : Store) (l : List Nat) (acc : List (Nat × List Nat))
    (h : ∀ rid ∈ l, (lookupA s1.heap rid).map (fun r => r.type)
        = (lookupA s2.heap rid).map (fun r => r.type)) :
    l.foldl (fun acc2 rid => match lookupA s1.heap rid with
        | some r => groupInsert acc2 r.type rid
        | none => acc2) acc
      = l.foldl (fun acc2 rid => match lookupA s2.heap rid with
        | some r => groupInsert acc2 r.type rid
        | none => acc2) acc := by
  induction l generalizing acc with
  | nil => rfl
  | cons rid rest ih =>
      have hr := h rid (by simp)
      simp only [List.foldl_cons]
      cases h1 : lookupA s1.heap rid with
      | none =>
          cases h2 : lookupA s2.heap rid with
          | none => exact ih _ (fun r2 hr2 => h r2 (List.mem_cons_of_mem _ hr2))
          | some r2 => rw [h1, h2] at hr; simp at hr
      | some r1 =>
          cases h2 : lookupA s2.heap rid with
          | none => rw [h1, h2] at hr; simp at hr
          | some r2 =>
              rw [h1, h2] at hr
              simp at hr
              have hstep : (match some r1 with
                  | some r => groupInsert acc r.type rid
                  | none => acc) = groupInsert acc r2.type rid := by
                rw [← hr]
              rw [hstep]
              exact ih _ (fun r3 hr3 => h r3 (List.mem_cons_of_mem _ hr3))

theorem groupByType_congr (s1 s2 : Store) (l : List Nat)
    (h : ∀ rid ∈ l, (lookupA s1.heap rid).map (fun r => r.type)
        = (lookupA s2.heap rid).map (fun r => r.type)) :
    groupByType s1 l = groupByType s2 l :=
  groupFold_congr s1 s2 l [] h

theorem groupFold_single (s : Store) (t : Nat) (l : List Nat) (acc0 : List Nat)
    (h : ∀ rid ∈ l, (lookupA s.heap rid).map (fun r => r.type) = some t) :
    l.foldl (fun acc rid => match lookupA s.heap rid with
        | some r => groupInsert acc r.type rid
        | none => acc) [(t, acc0)]
      = [(t, acc0 ++ l)] := by
  induction l generalizing acc0 with
  | nil => simp
  | cons rid rest ih =>
      have hr := h rid (by simp)
      cases h1 : lookupA s.heap rid with
      | none => rw [h1] at hr; simp at hr
      | some r =>
          rw [h1] at hr
          simp at hr
          simp only [List.foldl_cons, h1]
          have hg : groupInsert [(t, acc0)] r.type rid = [(t, acc0 ++ [rid])] := by
            simp [groupInsert, hr]
          rw [hg, ih (acc0 ++ [rid]) (fun r2 hr2 => h r2 (List.mem_cons_of_mem _ hr2))]
          simp

theorem groupByType_single (s : Store) (t : Nat) (l : List Nat)
    (h : ∀ rid ∈ l, (lookupA s.heap rid).map (fun r => r.type) = some t) :
    groupByType s l = if l = [] then [] else [(t, l)] := by
  cases l with
  | nil => rfl
  | cons rid rest =>
      have hr := h rid (by simp)
      rw [if_neg (by simp)]
      cases h1 : lookupA s.heap rid with
      | none => rw [h1] at hr; simp at hr
      | some r =>
          rw [h1] at hr
          simp at hr
          show (rid :: rest).foldl _ [] = _
          simp only [groupByType, List.foldl_cons, h1]
          have hg : groupInsert [] r.type rid = [(t, [rid])] := by
            simp [groupInsert, hr]
          rw [hg, groupFold_single s t rest [rid]
            (fun r2 hr2 => h r2 (List.mem_cons_of_mem _ hr2))]
          simp

@[simp] theorem createManyArray_adapterLog (s : Store) (t : Nat) (rids : List Nat) :
    (createManyArray s t rids).2.adapterLog = s.adapterLog := rfl

@[simp] theorem createManyArray_heap (s : Store) (t : Nat) (rids : List Nat) :
    (createManyArray s t rids).2.heap = s.heap := rfl

theorem fetchMany_single (s : Store) (t : Nat) (l : List Nat) (owner res : Nat)
    (hne : l ≠ [])
    (hl : groupByType s l = [(t, l)]) :
    fetchMany s l owner res
      = { s with adapterLog :=
            s.adapterLog ++ [.findMany t (l.map (idOf s)) owner res] } := by
  have hie : l.isEmpty = false := by
    cases l with
    | nil => exact absurd rfl hne
    | cons a as => rfl
  unfold fetchMany
  simp [hie, hl]

theorem fetchMany_of_typed (sx s : Store) (t owner res : Nat) (u : List Nat)
    (hne : u ≠ [])
    (hheap : ∀ rid, (lookupA sx.heap rid).map (fun r => (r.type, r.id))
        = (lookupA s.heap rid).map (fun r => (r.type, r.id)))
    (htype : ∀ rid ∈ u, (lookupA s.heap rid).map (fun r => r.type) = some t) :
    (fetchMany sx u owner res).adapterLog
      = sx.adapterLog ++ [.findMany t (u.map (idOf s)) owner res] := by
  have htype2 : ∀ rid ∈ u, (lookupA sx.heap rid).map (fun r => r.type) = some t :=
    fun rid hr => (typeRead_of_typeId sx s rid (hheap rid)).trans (htype rid hr)
  have hgroup : groupByType sx u = [(t, u)] := by
    rw [groupByType_single sx t u htype2, if_neg hne]
  rw [fetchMany_single sx t u owner res hne hgroup]
  have hmap : u.map (idOf sx) = u.map (idOf s) :=
    List.map_congr_left (fun rid _ => idOf_of_typeId sx s rid (hheap rid))
  rw [hmap]

theorem findMany_eq (s : Store) (owner : Nat) (records : List Nat) (t : Nat) (res : Nat) :
    findMany s owner records t res =
      (if (records.filter (fun rid => isEmptyIn s rid)).length ≠ 0 then
        ((createManyArray s t records).1,
         fetchMany
           { (records.filter (fun rid => isEmptyIn s rid)).foldl loadingMark
               (createManyArray s t records).2 with
             arrays := updateA
               ((records.filter (fun rid => isEmptyIn s rid)).foldl loadingMark
                 (createManyArray s t records).2).arrays
               (createManyArray s t records).1
               (fun a => { a with loadingCount :=
                 (records.filter (fun rid => isEmptyIn s rid)).length }) }
           (records.filter (fun rid => isEmptyIn s rid)) owner res)
      else
        ((createManyArray s t records).1,
         { (records.filter (fun rid => isEmptyIn s rid)).foldl loadingMark
             (createManyArray s t records).2 with
           arrays := updateA
             (updateA
               ((records.filter (fun rid => isEmptyIn s rid)).foldl loadingMark
                 (createManyArray s t records).2).arrays
               (createManyArray s t records).1
               (fun a => { a with loadingCount :=
                 (records.filter (fun rid => isEmptyIn s rid)).length }))
             (createManyArray s t records).1
             (fun a => { a with isLoaded := true }) })) := rfl

/-- C8 (amended: the empty-list call is a pure no-op that does not resolve
anything): in a batched multi-record fetch only records in the empty state
participate — `findMany` sends the adapter exactly one batched `findMany`
call listing the ids of the empty-state input records (none at all when every
input record is non-empty) — and `fetchMany` invoked with an empty record
list returns the store unchanged: the adapter is never called, but the passed
resolver is not resolved either (the synchronous already-loaded completion is
performed by `findMany` on the many-array, not by `fetchMany`). -/
theorem findMany_only_empty_records :
    (∀ (s : Store) (owner res : Nat), fetchMany s [] owner res = s) ∧
    (∀ (s : Store) (owner res t : Nat) (records : List Nat),
        (∀ rid ∈ records, (lookupA s.heap rid).map (fun r => r.type) = some t) →
        (findMany s owner records t res).2.adapterLog
          = s.adapterLog
            ++ (if records.filter (fun rid => isEmptyIn s rid) = [] then []
                else [AdapterCall.findMany t
                  ((records.filter (fun rid => isEmptyIn s rid)).map (idOf s)) owner res])) := by
  constructor
  · intro s owner res
    rfl
  · intro s owner res t records h
    by_cases hne : records.filter (fun rid => isEmptyIn s rid) = []
    · rw [findMany_eq, hne]
      simp [markFold_adapterLog]
    · have hlen : (records.filter (fun rid => isEmptyIn s rid)).length ≠ 0 := by
        intro h0
        exact hne (List.eq_nil_of_length_eq_zero h0)
      rw [findMany_eq, if_pos hlen, if_neg hne]
      refine Eq.trans (fetchMany_of_typed _ s t owner res _ hne ?_ ?_) ?_
      · intro rid
        exact markFold_typeId _ _ rid
      · intro rid hr
        exact h rid (List.mem_of_mem_filter hr)
      · simp [markFold_adapterLog]

/-- A store with two records of type 0: record 0 an empty shell (id "1") and
record 1 already loaded (id "2"). -/
def sC8 : Store :=
  { typeMaps := [],
    heap := [(0, { type := 0, id := JSVal.str "1", state := RecState.empty, isNew := false,
                   isDeleted := false, willCommit := false }),
             (1, { type := 0, id := JSVal.str "2", state := RecState.loaded, isNew := false,
                   isDeleted := false, willCommit := false })],
    arrays := [], nextObj := 2, pendingSave := [], flushScheduled := false,
    adapterLog := [], resolvedLog := [] }

/-- C8 witness: `findMany` over records [0, 1] of type 0 — only the
empty-state record 0 is forwarded to the adapter (one batched `findMany` call
listing just its id); the loaded record 1 is not sent. -/
theorem findMany_only_empty_records_witness :
    (findMany sC8 7 [0, 1] 0 9).2.adapterLog
      = sC8.adapterLog
        ++ (if [0, 1].filter (fun rid => isEmptyIn sC8 rid) = [] then []
            else [AdapterCall.findMany 0
              (([0, 1].filter (fun rid => isEmptyIn sC8 rid)).map (idOf sC8)) 7 9]) :=
  findMany_only_empty_records.2 sC8 7 9 0 [0, 1] (by decide)

/-- C8 counterexample: `fetchMany` with an empty record list returns the
store completely unchanged — in particular the adapter is never called and
resolver 9 is never resolved (`resolvedLog` stays empty), so the passed
future is left pending, refuting the claim that the call "resolves the
returned future synchronously" (the function also returns no future at all:
the early return yields undefined). -/
theorem fetchMany_empty_list_pending :
    fetchMany sC8 [] 7 9 = sC8 ∧
    sC8.resolvedLog = [] ∧
    sC8.adapterLog = [] :=
  ⟨rfl, rfl, rfl⟩
